import Mathlib

/-!
Shallow embedding of the batch-engine core (TypeScript sources:
`BatchStep.ts`, `StepExecutionResult.ts`, `PersistanceContext.ts`,
`BatchJob.ts`, `BatchStatus.ts`) together with proofs about the
aggregator chain, the checkpoint protocol and the controller.

Conventions of the embedding:
* JS arrays become `List`; `push` becomes append on the right.
* Record payloads, record ids and error values are `String`s.
* SER ids (UUID v1 in the source) become `Nat`s handed out by a counter
  threaded through the engine state; the id is assigned at publication.
* The LevelDB namespaces become association lists; the non-fsync'd disk
  writes of the `records` namespace are modelled as a queue of scheduled
  disk operations next to the authoritative in-memory write-through cache,
  mirroring `putRecordStatus` / `delRecordStatus` / `getRecordStatus`.
* `async`/`await` on the single-threaded cooperative scheduler is modelled
  by explicit state passing in program order.
-/

namespace BatchEngine

/-- Association-list lookup (model of a key-value namespace read). -/
def alookup {α β : Type} [DecidableEq α] : List (α × β) → α → Option β
  | [], _ => none
  | (k, v) :: rest, key => if k = key then some v else alookup rest key

/-- Association-list erase (model of a key-value namespace delete). -/
def aerase {α β : Type} [DecidableEq α] : List (α × β) → α → List (α × β)
  | [], _ => []
  | (k, v) :: rest, key => if k = key then aerase rest key else (k, v) :: aerase rest key

/-- Association-list set (model of a key-value namespace put). -/
def aset {α β : Type} [DecidableEq α] (l : List (α × β)) (key : α) (v : β) : List (α × β) :=
  (key, v) :: aerase l key

theorem alookup_aerase_self {α β : Type} [DecidableEq α] (l : List (α × β)) (k : α) :
    alookup (aerase l k) k = none := by
  induction l with
  | nil => rfl
  | cons hd tl ih =>
    obtain ⟨k', v'⟩ := hd
    by_cases h : k' = k
    · simpa [aerase, h] using ih
    · simp [aerase, alookup, h, ih]

theorem alookup_aerase_ne {α β : Type} [DecidableEq α] (l : List (α × β)) (k r : α)
    (h : r ≠ k) : alookup (aerase l k) r = alookup l r := by
  induction l with
  | nil => rfl
  | cons hd tl ih =>
    obtain ⟨k', v'⟩ := hd
    by_cases hk : k' = k
    · have hne : ¬ k' = r := by
        rw [hk]
        exact fun hc => h hc.symm
      simp [aerase, alookup, hk, hne, ih, Ne.symm h]
    · by_cases hr : k' = r
      · simp [aerase, alookup, hk, hr, h]
      · simp [aerase, alookup, hk, hr, ih]

theorem alookup_aset_self {α β : Type} [DecidableEq α] (l : List (α × β)) (k : α) (v : β) :
    alookup (aset l k v) k = some v := by
  simp [aset, alookup]

theorem alookup_aset_ne {α β : Type} [DecidableEq α] (l : List (α × β)) (k r : α) (v : β)
    (h : r ≠ k) : alookup (aset l k v) r = alookup l r := by
  have : ¬ k = r := fun hc => h hc.symm
  simp [aset, alookup, this, alookup_aerase_ne l k r h]

/-- `STEP_RESULT_STATUS` enum of `StepExecutionResult.ts`. -/
inductive STEP_RESULT_STATUS where
  | FAILED
  | ACCUMULATING
  | PROCESSING
  | SUCCESSFUL
deriving Repr, DecidableEq

/-- `BATCH_STATUS` enum (`BATCH_STATUS.ts`, as listed by `MiscellaneousUtils`). -/
inductive BATCH_STATUS where
  | NOT_STARTED
  | PROCESSING_INJECTING
  | PROCESSING_WAITING
  | FINISHED_SUCCESSFULLY
  | FINISHED_WITH_ERRORS
deriving Repr, DecidableEq

/-- The `records` namespace row `{step, id, status}` produced by
`StepExecutionResult.getNiceObjectToLogRecord`. -/
structure RecordRow where
  step : Nat
  id : Nat
  status : Option STEP_RESULT_STATUS
deriving Repr, DecidableEq

/-- `StepExecutionResult` (the SER). The `id` is `none` until the first
durable publication assigns a fresh id. -/
structure StepExecutionResult where
  id : Option Nat
  stepName : String
  stepNumber : Nat
  stepResultStatus : Option STEP_RESULT_STATUS
  dependentRecords : List String
  accPayload : List String
  outputPayload : Option String
  error : Option String
  isLastOne : Bool
deriving Repr, DecidableEq

/-- A scheduled (not yet completed) disk write of the `records` namespace. -/
inductive RecordsDiskOp where
  | put (key : String) (row : RecordRow)
  | del (key : String)
deriving Repr, DecidableEq

/-- `PersistanceContext`: the `records` namespace with its write-through
cache (`recordsDBCache`) and scheduled non-fsync'd disk operations, and the
`steps-results` namespace keyed by SER id. -/
structure PersistanceState where
  recordsDBCache : List (String × RecordRow)
  recordsDiskQueue : List RecordsDiskOp
  recordsDisk : List (String × RecordRow)
  stepsResultsDB : List (Nat × StepExecutionResult)
deriving Repr, DecidableEq

def emptyPersistanceState : PersistanceState :=
  { recordsDBCache := [], recordsDiskQueue := [], recordsDisk := [], stepsResultsDB := [] }

/-- `putRecordStatus`: caches the key/value, then schedules the disk put. -/
def putRecordStatus (st : PersistanceState) (key : String) (row : RecordRow) :
    PersistanceState :=
  { st with
    recordsDBCache := aset st.recordsDBCache key row
    recordsDiskQueue := st.recordsDiskQueue ++ [RecordsDiskOp.put key row] }

/-- `getRecordStatus`: served from the in-memory cache only. -/
def getRecordStatus (st : PersistanceState) (key : String) : Option RecordRow :=
  alookup st.recordsDBCache key

/-- `delRecordStatus`: removes the cache entry, then schedules the disk delete. -/
def delRecordStatus (st : PersistanceState) (key : String) : PersistanceState :=
  { st with
    recordsDBCache := aerase st.recordsDBCache key
    recordsDiskQueue := st.recordsDiskQueue ++ [RecordsDiskOp.del key] }

/-- `putStepResult`: stores an SER snapshot under its publication id. -/
def putStepResult (st : PersistanceState) (key : Nat) (snap : StepExecutionResult) :
    PersistanceState :=
  { st with stepsResultsDB := aset st.stepsResultsDB key snap }

/-- `getStepResultKey`. -/
def getStepResultKey (st : PersistanceState) (key : Nat) : Option StepExecutionResult :=
  alookup st.stepsResultsDB key

/-- `delStepResultKey`. -/
def delStepResultKey (st : PersistanceState) (key : Nat) : PersistanceState :=
  { st with stepsResultsDB := aerase st.stepsResultsDB key }

/-- Effect of one scheduled disk operation on the on-disk `records` map. -/
def applyRecordsDiskOp (disk : List (String × RecordRow)) (op : RecordsDiskOp) :
    List (String × RecordRow) :=
  match op with
  | RecordsDiskOp.put k row => aset disk k row
  | RecordsDiskOp.del k => aerase disk k

/-- Completion of every scheduled disk operation of the `records` namespace. -/
def flushRecordsDisk (st : PersistanceState) : PersistanceState :=
  { st with
    recordsDisk := st.recordsDiskQueue.foldl applyRecordsDiskOp st.recordsDisk
    recordsDiskQueue := [] }

/-- Loop body of the finalization branch of `updateAddingStepExecResult`
(status terminal success): delete the prior step snapshot if the record had
one, then delete the record entry. -/
def finalizeRecord (acc : PersistanceState) (rec : String) : PersistanceState :=
  let acc1 := match getRecordStatus acc rec with
    | some row => delStepResultKey acc row.id
    | none => acc
  delRecordStatus acc1 rec

/-- Loop body of the non-terminal branch of `updateAddingStepExecResult`:
delete the prior step snapshot if the record had one, then point the record
entry at the fresh publication. -/
def checkpointRecord (stepNumber : Nat) (freshId : Nat)
    (status : Option STEP_RESULT_STATUS) (acc : PersistanceState) (rec : String) :
    PersistanceState :=
  let acc1 := match getRecordStatus acc rec with
    | some row => delStepResultKey acc row.id
    | none => acc
  putRecordStatus acc1 rec { step := stepNumber, id := freshId, status := status }

/-- `StepExecutionResult.updateAddingStepExecResult`: assign a fresh id,
store the snapshot under it, then walk the dependent records, finalizing
them on terminal success and re-pointing them otherwise. -/
def updateAddingStepExecResult (ser : StepExecutionResult) (freshId : Nat)
    (st : PersistanceState) : PersistanceState :=
  let serP := { ser with id := some freshId }
  let st1 := putStepResult st freshId serP
  if serP.stepResultStatus = some STEP_RESULT_STATUS.SUCCESSFUL ∧ serP.isLastOne = true then
    serP.dependentRecords.foldl finalizeRecord st1
  else
    serP.dependentRecords.foldl
      (checkpointRecord serP.stepNumber freshId serP.stepResultStatus) st1

/-- `BatchStep`: one aggregator of the chain. The successor pointer is
represented by the tail of the chain list; `userStep` is the abstract
client `step` function (`Except` models promise rejection). -/
structure BatchStep where
  stepName : String
  stepNumber : Nat
  aggregationQuantity : Nat
  dependentRecordsAcc : List String
  previousStepPayloadAcc : List String
  userStep : List String → Except String String

/-- `addPreviousDependentRecordsToAcc`. -/
def addPreviousDependentRecordsToAcc (s : BatchStep) (prevDeps : List String) : BatchStep :=
  { s with dependentRecordsAcc := s.dependentRecordsAcc ++ prevDeps }

/-- `addPreviousStepPayloadAcc`: the payload is pushed only when non-null. -/
def addPreviousStepPayloadAcc (s : BatchStep) (p : Option String) : BatchStep :=
  match p with
  | some v => { s with previousStepPayloadAcc := s.previousStepPayloadAcc ++ [v] }
  | none => s

/-- `getCurrentStepStatus`: a fixed image (copy) of the step's buffers.
The `isLastOne` flag of the produced SER is wired from the chain shape
(the SER of the step without successor is the last one), per the spec's
terminal-success finalization contract. -/
def getCurrentStepStatus (s : BatchStep) (isLast : Bool)
    (outputPayload : Option String := none)
    (status : Option STEP_RESULT_STATUS := none) : StepExecutionResult :=
  { id := none
    stepName := s.stepName
    stepNumber := s.stepNumber
    stepResultStatus := status
    dependentRecords := s.dependentRecordsAcc
    accPayload := s.previousStepPayloadAcc
    outputPayload := outputPayload
    error := none
    isLastOne := isLast }

/-- `resetAggregator`. -/
def resetAggregator (s : BatchStep) : BatchStep :=
  { s with previousStepPayloadAcc := [], dependentRecordsAcc := [] }

/-- Engine-side state threaded through a chain execution: the persistence
context and the fresh-id counter standing for the UUID generator. -/
structure EngineSt where
  pers : PersistanceState
  nextId : Nat

/-- One durable publication of an SER (`updateAddingStepExecResult` plus the
fresh-id assignment `this.id = uuidv1()`). -/
def publish (ser : StepExecutionResult) (st : EngineSt) : StepExecutionResult × EngineSt :=
  ({ ser with id := some st.nextId },
   { pers := updateAddingStepExecResult ser st.nextId st.pers, nextId := st.nextId + 1 })

/-- Result of a chain execution: returned SER, chain with updated buffers,
engine state, and the list of user-step invocations `(stepNumber, payloads)`
performed during the call (observation instrumentation). -/
structure ExecOut where
  ser : StepExecutionResult
  chain : List BatchStep
  engine : EngineSt
  calls : List (Nat × List String)

/-- Placeholder SER for the impossible `executeClientStep` call on an empty
chain (a step always exists in the source). -/
def emptyStepExecutionResult : StepExecutionResult :=
  { id := none, stepName := "", stepNumber := 0, stepResultStatus := none,
    dependentRecords := [], accPayload := [], outputPayload := none,
    error := none, isLastOne := true }

/-- Entry mode of `run1`: `exec prev` is `BatchStep.execute(prev, rf)`,
`client` is `BatchStep.executeClientStep(rf)`. -/
inductive ExecMode where
  | exec (prev : StepExecutionResult)
  | client

/-- The mutually recursive pair `BatchStep.execute` /
`BatchStep.executeClientStep` of `BatchStep.ts`, compiled into a single
structural recursion over the chain list.  The `executeClientStep` body
(snapshot, reset, dispatch / delegate) appears twice: once for the
dispatch branch of `execute` (resume flag already decremented) and once
for `client` mode, exactly as the two call sites of the source. -/
def run1 : List BatchStep → ExecMode → Int → EngineSt → ExecOut
  | [], ExecMode.exec prev, _, st => ⟨prev, [], st, []⟩
  | [], ExecMode.client, _, st => ⟨emptyStepExecutionResult, [], st, []⟩
  | s :: rest, ExecMode.exec prev, rf, st =>
    -- execute: accumulate the incoming records and payload.
    let s1 := addPreviousStepPayloadAcc
      (addPreviousDependentRecordsToAcc s prev.dependentRecords) prev.outputPayload
    if s1.aggregationQuantity ≤ s1.previousStepPayloadAcc.length ∨ 0 < rf then
      -- executeClientStep(rf - 1): snapshot, reset, then dispatch.
      let ser0 := getCurrentStepStatus s1 rest.isEmpty
      let s2 := resetAggregator s1
      if 0 < ser0.accPayload.length ∧ 0 < ser0.dependentRecords.length then
        let pSer := { ser0 with stepResultStatus := some STEP_RESULT_STATUS.PROCESSING }
        let pub1 := publish pSer st
        match s1.userStep ser0.accPayload with
        | Except.ok payload =>
          let oSer := { pub1.1 with outputPayload := some payload }
          let sSer := { oSer with stepResultStatus := some STEP_RESULT_STATUS.SUCCESSFUL }
          if rest.isEmpty then
            let pub2 := publish sSer pub1.2
            ⟨pub2.1, s2 :: rest, pub2.2, [(s1.stepNumber, ser0.accPayload)]⟩
          else
            let out := run1 rest (ExecMode.exec sSer) (rf - 1) pub1.2
            ⟨out.ser, s2 :: out.chain, out.engine, (s1.stepNumber, ser0.accPayload) :: out.calls⟩
        | Except.error e =>
          let fSer := { pub1.1 with stepResultStatus := some STEP_RESULT_STATUS.FAILED, error := some e }
          let pub2 := publish fSer pub1.2
          ⟨pub2.1, s2 :: rest, pub2.2, [(s1.stepNumber, ser0.accPayload)]⟩
      else
        if rest.isEmpty then
          let sSer := { ser0 with stepResultStatus := some STEP_RESULT_STATUS.SUCCESSFUL }
          let pub1 := publish sSer st
          ⟨pub1.1, s2 :: rest, pub1.2, []⟩
        else
          let out := run1 rest ExecMode.client (rf - 1 - 1) st
          ⟨out.ser, s2 :: out.chain, out.engine, out.calls⟩
    else
      -- accumulating: publish an ACCUMULATING snapshot, keep the buffers.
      let aSer := getCurrentStepStatus s1 rest.isEmpty none
        (some STEP_RESULT_STATUS.ACCUMULATING)
      let pub1 := publish aSer st
      ⟨pub1.1, s1 :: rest, pub1.2, []⟩
  | s :: rest, ExecMode.client, rf, st =>
    -- executeClientStep(rf): snapshot, reset, then dispatch.
    let ser0 := getCurrentStepStatus s rest.isEmpty
    let s2 := resetAggregator s
    if 0 < ser0.accPayload.length ∧ 0 < ser0.dependentRecords.length then
      let pSer := { ser0 with stepResultStatus := some STEP_RESULT_STATUS.PROCESSING }
      let pub1 := publish pSer st
      match s.userStep ser0.accPayload with
      | Except.ok payload =>
        let oSer := { pub1.1 with outputPayload := some payload }
        let sSer := { oSer with stepResultStatus := some STEP_RESULT_STATUS.SUCCESSFUL }
        if rest.isEmpty then
          let pub2 := publish sSer pub1.2
          ⟨pub2.1, s2 :: rest, pub2.2, [(s.stepNumber, ser0.accPayload)]⟩
        else
          let out := run1 rest (ExecMode.exec sSer) rf pub1.2
          ⟨out.ser, s2 :: out.chain, out.engine, (s.stepNumber, ser0.accPayload) :: out.calls⟩
      | Except.error e =>
        let fSer := { pub1.1 with stepResultStatus := some STEP_RESULT_STATUS.FAILED, error := some e }
        let pub2 := publish fSer pub1.2
        ⟨pub2.1, s2 :: rest, pub2.2, [(s.stepNumber, ser0.accPayload)]⟩
    else
      if rest.isEmpty then
        let sSer := { ser0 with stepResultStatus := some STEP_RESULT_STATUS.SUCCESSFUL }
        let pub1 := publish sSer st
        ⟨pub1.1, s2 :: rest, pub1.2, []⟩
      else
        let out := run1 rest ExecMode.client (rf - 1) st
        ⟨out.ser, s2 :: out.chain, out.engine, out.calls⟩

/-- `BatchStep.execute(previousStepResult, resumeFlagCount)`. -/
def execute (chain : List BatchStep) (prev : StepExecutionResult) (rf : Int)
    (st : EngineSt) : ExecOut :=
  run1 chain (ExecMode.exec prev) rf st

/-- `BatchStep.executeClientStep(resumeFlagCount)`. -/
def executeClientStep (chain : List BatchStep) (rf : Int) (st : EngineSt) : ExecOut :=
  run1 chain ExecMode.client rf st

/-- The `executeClientStep` body abstracted over the two successor calls
(`successor.execute` and `successor.executeClientStep`); `run1` is equal to
this by definitional unfolding, which gives workable equations for the
chain proofs. -/
def clientStepDispatch (s : BatchStep) (rest : List BatchStep) (rfc : Int) (st : EngineSt)
    (recurExec : StepExecutionResult → Int → EngineSt → ExecOut)
    (recurClient : Int → EngineSt → ExecOut) : ExecOut :=
  let ser0 := getCurrentStepStatus s rest.isEmpty
  let s2 := resetAggregator s
  if 0 < ser0.accPayload.length ∧ 0 < ser0.dependentRecords.length then
    let pSer := { ser0 with stepResultStatus := some STEP_RESULT_STATUS.PROCESSING }
    let pub1 := publish pSer st
    match s.userStep ser0.accPayload with
    | Except.ok payload =>
      let oSer := { pub1.1 with outputPayload := some payload }
      let sSer := { oSer with stepResultStatus := some STEP_RESULT_STATUS.SUCCESSFUL }
      if rest.isEmpty then
        let pub2 := publish sSer pub1.2
        ⟨pub2.1, s2 :: rest, pub2.2, [(s.stepNumber, ser0.accPayload)]⟩
      else
        let out := recurExec sSer rfc pub1.2
        ⟨out.ser, s2 :: out.chain, out.engine, (s.stepNumber, ser0.accPayload) :: out.calls⟩
    | Except.error e =>
      let fSer := { pub1.1 with stepResultStatus := some STEP_RESULT_STATUS.FAILED, error := some e }
      let pub2 := publish fSer pub1.2
      ⟨pub2.1, s2 :: rest, pub2.2, [(s.stepNumber, ser0.accPayload)]⟩
  else
    if rest.isEmpty then
      let sSer := { ser0 with stepResultStatus := some STEP_RESULT_STATUS.SUCCESSFUL }
      let pub1 := publish sSer st
      ⟨pub1.1, s2 :: rest, pub1.2, []⟩
    else
      let out := recurClient (rfc - 1) st
      ⟨out.ser, s2 :: out.chain, out.engine, out.calls⟩

theorem run1_client_cons (s : BatchStep) (rest : List BatchStep) (rf : Int) (st : EngineSt) :
    run1 (s :: rest) ExecMode.client rf st
      = clientStepDispatch s rest rf st
          (fun ser rfp stp => run1 rest (ExecMode.exec ser) rfp stp)
          (fun rfp stp => run1 rest ExecMode.client rfp stp) := rfl

theorem run1_exec_cons (s : BatchStep) (rest : List BatchStep) (prev : StepExecutionResult)
    (rf : Int) (st : EngineSt) :
    run1 (s :: rest) (ExecMode.exec prev) rf st
      = (let s1 := addPreviousStepPayloadAcc
           (addPreviousDependentRecordsToAcc s prev.dependentRecords) prev.outputPayload
         if s1.aggregationQuantity ≤ s1.previousStepPayloadAcc.length ∨ 0 < rf then
           clientStepDispatch s1 rest (rf - 1) st
             (fun ser rfp stp => run1 rest (ExecMode.exec ser) rfp stp)
             (fun rfp stp => run1 rest ExecMode.client rfp stp)
         else
           let aSer := getCurrentStepStatus s1 rest.isEmpty none
             (some STEP_RESULT_STATUS.ACCUMULATING)
           let pub1 := publish aSer st
           ⟨pub1.1, s1 :: rest, pub1.2, []⟩) := rfl

/-- `BatchRecord`: a source record `{id, object}`. -/
structure BatchRecord where
  id : String
  payload : String
deriving Repr, DecidableEq

/-- The bootstrap SER built by `BatchJob.executeRecordSteps`. -/
def bootstrapStepResult (r : BatchRecord) : StepExecutionResult :=
  { id := none
    stepName := "Bootstrap"
    stepNumber := 0
    stepResultStatus := some STEP_RESULT_STATUS.SUCCESSFUL
    dependentRecords := [r.id]
    accPayload := []
    outputPayload := some r.payload
    error := none
    isLastOne := false }

/-- `BatchStep.getStepsCount` over the chain. -/
def getStepsCount : List BatchStep → Nat
  | [] => 0
  | _ :: rest => 1 + getStepsCount rest

/-- Modelled from the spec: `getTotalStepsNeeded` (missing from the sources,
only its callers in `BatchJob.ts` are present) — the pipeline fan-in, the
product of the aggregation quantities along the chain. -/
def getTotalStepsNeeded : List BatchStep → Nat
  | [] => 1
  | s :: rest => s.aggregationQuantity * getTotalStepsNeeded rest

/-- Modelled from the spec: `recordsInTheChain` (missing from the sources,
only its callers in `BatchJob.ts` are present) — the number of record ids
currently parked in the pending buffers of the chain. -/
def recordsInTheChain (chain : List BatchStep) : Nat :=
  (chain.map (fun s => s.dependentRecordsAcc.length)).sum

/-- Classification made by `BatchJob.executeRecordSteps` of the SER returned
by the chain: the count handed to `doPostCommonRecordTasks` (named
`successfulDependentRecords` at the call site). -/
def successfulDependentRecords (stepsCount : Nat) (returned : StepExecutionResult) : Nat :=
  if returned.stepResultStatus = some STEP_RESULT_STATUS.FAILED then
    returned.dependentRecords.length
  else if returned.stepResultStatus = some STEP_RESULT_STATUS.SUCCESSFUL ∧
      returned.stepNumber = stepsCount then
    returned.dependentRecords.length
  else
    0

/-- The failed-records counter increment made by `executeRecordSteps`
(`addOneFailedRecords` is called only on a `FAILED` returned SER). -/
def failedRecordsDelta (returned : StepExecutionResult) : Nat :=
  if returned.stepResultStatus = some STEP_RESULT_STATUS.FAILED then
    returned.dependentRecords.length
  else
    0

/-- `BatchJob.doPostCommonRecordTasks`: decrement the concurrency by the
classified count and, while the batch status is `PROCESSING_INJECTING`,
schedule that many fresh `doNextObj` pump iterations.  Returns the new
concurrency and the number of scheduled pump iterations. -/
def doPostCommonRecordTasks (currentConcurrency : Int) (status : BATCH_STATUS)
    (n : Nat) : Int × Nat :=
  let conc := currentConcurrency - n
  if status = BATCH_STATUS.PROCESSING_INJECTING then (conc, n) else (conc, 0)

/-- Aggregate outcome of a (modelled) run of the controller. -/
structure RunOutcome where
  chain : List BatchStep
  loadedRecords : Nat
  failedRecords : Nat
  currentConcurrency : Int
  status : BATCH_STATUS
  engine : EngineSt
  calls : List (Nat × List String)

/-- One pump iteration of `BatchJob.doNextObj` on a freshly pulled record:
`doPreCommonRecordTasks` (concurrency and loaded counters), then
`executeRecordSteps` (bootstrap SER through the chain, failed counting),
then the concurrency decrement of `doPostCommonRecordTasks`. -/
def pumpOne (o : RunOutcome) (r : BatchRecord) : RunOutcome :=
  let conc := o.currentConcurrency + 1
  let loaded := o.loadedRecords + 1
  let out := execute o.chain (bootstrapStepResult r) 0 o.engine
  let n := successfulDependentRecords (getStepsCount o.chain) out.ser
  { chain := out.chain
    loadedRecords := loaded
    failedRecords := o.failedRecords + failedRecordsDelta out.ser
    currentConcurrency := conc - n
    status := o.status
    engine := out.engine
    calls := o.calls ++ out.calls }

/-- `BatchJob.resume`: force the chain with drain semantics
(`executeClientStep(stepsCount - 1)`), count failures, release the
concurrency of the records that left the chain. -/
def resume (o : RunOutcome) : RunOutcome :=
  let conc := o.currentConcurrency + recordsInTheChain o.chain
  let out := executeClientStep o.chain (Int.ofNat (getStepsCount o.chain) - 1) o.engine
  { chain := out.chain
    loadedRecords := o.loadedRecords
    failedRecords := o.failedRecords + failedRecordsDelta out.ser
    currentConcurrency := conc - out.ser.dependentRecords.length
    status := o.status
    engine := out.engine
    calls := o.calls ++ out.calls }

/-- `BatchStatus.endBatchExecution`: final phase from the failure counter. -/
def endBatchExecution (o : RunOutcome) : RunOutcome :=
  { o with status := if 0 < o.failedRecords then BATCH_STATUS.FINISHED_WITH_ERRORS
                     else BATCH_STATUS.FINISHED_SUCCESSFULLY }

/-- Modelled from the spec: the single-threaded cooperative schedule of a
`run` (the scheduler itself is not a source artifact): every pumped record's
chain execution completes before the next pull, the source exhaustion flips
the phase to `PROCESSING_WAITING`, then the parked records are drained by
`resume` and the batch ends. -/
def runPumpThenDrain (chain : List BatchStep) (records : List BatchRecord)
    (st : EngineSt) : RunOutcome :=
  let o0 : RunOutcome :=
    { chain := chain, loadedRecords := 0, failedRecords := 0, currentConcurrency := 0,
      status := BATCH_STATUS.PROCESSING_INJECTING, engine := st, calls := [] }
  let o1 := records.foldl pumpOne o0
  let o2 := { o1 with status := BATCH_STATUS.PROCESSING_WAITING }
  endBatchExecution (resume o2)

/-- Modelled from the spec: `injectRecoveredState` (missing from the
sources, only its caller `BatchJob.retry` is present) — seeds step `i`'s
pending buffers with the snapshot's dependent records and accumulated
payload. -/
def injectRecoveredState (chain : List BatchStep) (snapshot : StepExecutionResult)
    (i : Nat) : List BatchStep :=
  chain.map (fun s =>
    if s.stepNumber = i then
      { s with
        dependentRecordsAcc := s.dependentRecordsAcc ++ snapshot.dependentRecords
        previousStepPayloadAcc := s.previousStepPayloadAcc ++ snapshot.accPayload }
    else s)

/-- State of a modelled `retry` run. -/
structure RetrySt where
  chain : List BatchStep
  loadedRecords : Nat
  failedRecords : Nat
  currentConcurrency : Int
  engine : EngineSt
  calls : List (Nat × List String)
  alreadyReMake : List Nat

/-- `BatchJob.resumeRecover`. -/
def resumeRecover (o : RetrySt) : RetrySt :=
  let conc := o.currentConcurrency + recordsInTheChain o.chain
  let out := executeClientStep o.chain (Int.ofNat (getStepsCount o.chain) - 1) o.engine
  { o with
    chain := out.chain
    failedRecords := o.failedRecords + failedRecordsDelta out.ser
    currentConcurrency := conc - out.ser.dependentRecords.length
    engine := out.engine
    calls := o.calls ++ out.calls }

/-- One `data` event of the recovered-records stream in `BatchJob.retry`:
rows not yet replayed whose step index matches are looked up in the
recovered steps namespace, injected, counted and drained. -/
def retryHandleRow (recoveredSteps : List (Nat × StepExecutionResult)) (i : Nat)
    (o : RetrySt) (row : String × RecordRow) : RetrySt :=
  if row.2.id ∉ o.alreadyReMake ∧ row.2.step = i then
    let o1 := { o with alreadyReMake := o.alreadyReMake ++ [row.2.id] }
    match alookup recoveredSteps row.2.id with
    | some snapshot =>
      let o2 := { o1 with
        chain := injectRecoveredState o1.chain snapshot i
        loadedRecords := o1.loadedRecords + snapshot.dependentRecords.length }
      resumeRecover o2
    | none => o1
  else o

/-- `BatchJob.retry(statusPath)`: the recovered persistence context is
represented by the residual `records` rows and recovered `steps` snapshots
of the prior run; for each step index in ascending order the residual rows
are replayed, then `doPostCommonBatchTasks` ends the batch. -/
def retry (chain : List BatchStep) (recoveredRecords : List (String × RecordRow))
    (recoveredSteps : List (Nat × StepExecutionResult)) (st : EngineSt) :
    RetrySt × BATCH_STATUS :=
  let o0 : RetrySt :=
    { chain := chain, loadedRecords := 0, failedRecords := 0, currentConcurrency := 0,
      engine := st, calls := [], alreadyReMake := [] }
  let o1 := (List.range (getStepsCount chain)).foldl
    (fun o idx => recoveredRecords.foldl (retryHandleRow recoveredSteps (idx + 1)) o) o0
  (o1, if 0 < o1.failedRecords then BATCH_STATUS.FINISHED_WITH_ERRORS
       else BATCH_STATUS.FINISHED_SUCCESSFULLY)

/-! ### Lemmas about the persistence operations and the checkpoint folds -/

theorem alookup_aerase_of_none {α β : Type} [DecidableEq α] (l : List (α × β)) (j k : α)
    (h : alookup l k = none) : alookup (aerase l j) k = none := by
  by_cases hk : k = j
  · subst hk
    exact alookup_aerase_self l k
  · rw [alookup_aerase_ne l j k hk]
    exact h

theorem recordsDBCache_putStepResult (st : PersistanceState) (i : Nat)
    (v : StepExecutionResult) : (putStepResult st i v).recordsDBCache = st.recordsDBCache := rfl

theorem recordsDBCache_delStepResultKey (st : PersistanceState) (i : Nat) :
    (delStepResultKey st i).recordsDBCache = st.recordsDBCache := rfl

theorem finalizeRecord_cache (st : PersistanceState) (a : String) :
    (finalizeRecord st a).recordsDBCache = aerase st.recordsDBCache a := by
  unfold finalizeRecord
  cases h : getRecordStatus st a <;> simp [h, delRecordStatus, delStepResultKey]

theorem finalizeRecord_steps_of_some (st : PersistanceState) (a : String) (row : RecordRow)
    (h : getRecordStatus st a = some row) :
    (finalizeRecord st a).stepsResultsDB = aerase st.stepsResultsDB row.id := by
  unfold finalizeRecord
  simp [h, delRecordStatus, delStepResultKey]

theorem finalizeRecord_steps_of_none (st : PersistanceState) (a : String)
    (h : getRecordStatus st a = none) :
    (finalizeRecord st a).stepsResultsDB = st.stepsResultsDB := by
  unfold finalizeRecord
  simp [h, delRecordStatus]

theorem checkpointRecord_cache (k i : Nat) (s : Option STEP_RESULT_STATUS)
    (st : PersistanceState) (a : String) :
    (checkpointRecord k i s st a).recordsDBCache
      = aset st.recordsDBCache a { step := k, id := i, status := s } := by
  unfold checkpointRecord
  cases h : getRecordStatus st a <;> simp [h, putRecordStatus, delStepResultKey]

theorem checkpointRecord_steps_of_some (k i : Nat) (s : Option STEP_RESULT_STATUS)
    (st : PersistanceState) (a : String) (row : RecordRow)
    (h : getRecordStatus st a = some row) :
    (checkpointRecord k i s st a).stepsResultsDB = aerase st.stepsResultsDB row.id := by
  unfold checkpointRecord
  simp [h, putRecordStatus, delStepResultKey]

theorem checkpointRecord_steps_of_none (k i : Nat) (s : Option STEP_RESULT_STATUS)
    (st : PersistanceState) (a : String) (h : getRecordStatus st a = none) :
    (checkpointRecord k i s st a).stepsResultsDB = st.stepsResultsDB := by
  unfold checkpointRecord
  simp [h, putRecordStatus]

theorem getRecord_finalize_foldl_of_none (l : List String) :
    ∀ (st : PersistanceState) (r : String), getRecordStatus st r = none →
      getRecordStatus (l.foldl finalizeRecord st) r = none := by
  induction l with
  | nil => intro st r h; exact h
  | cons a tl ih =>
    intro st r h
    apply ih
    show alookup (finalizeRecord st a).recordsDBCache r = none
    rw [finalizeRecord_cache]
    exact alookup_aerase_of_none _ _ _ h

theorem getRecord_finalize_foldl_mem (l : List String) :
    ∀ (st : PersistanceState) (r : String), r ∈ l →
      getRecordStatus (l.foldl finalizeRecord st) r = none := by
  induction l with
  | nil => intro st r h; cases h
  | cons a tl ih =>
    intro st r hr
    by_cases hra : r = a
    · subst hra
      rw [List.foldl_cons]
      refine getRecord_finalize_foldl_of_none tl (finalizeRecord st r) r ?_
      show alookup (finalizeRecord st r).recordsDBCache r = none
      rw [finalizeRecord_cache]
      exact alookup_aerase_self _ _
    · rcases List.mem_cons.mp hr with h | h
      · exact absurd h hra
      · exact ih (finalizeRecord st a) r h

theorem getStep_finalize_foldl_of_none (l : List String) :
    ∀ (st : PersistanceState) (i : Nat), getStepResultKey st i = none →
      getStepResultKey (l.foldl finalizeRecord st) i = none := by
  induction l with
  | nil => intro st i h; exact h
  | cons a tl ih =>
    intro st i h
    apply ih
    show alookup (finalizeRecord st a).stepsResultsDB i = none
    cases hrow : getRecordStatus st a with
    | some row =>
      rw [finalizeRecord_steps_of_some st a row hrow]
      exact alookup_aerase_of_none _ _ _ h
    | none =>
      rw [finalizeRecord_steps_of_none st a hrow]
      exact h

theorem getStep_finalize_foldl_prior (l : List String) :
    ∀ (st : PersistanceState) (r : String) (row : RecordRow), r ∈ l →
      getRecordStatus st r = some row →
      getStepResultKey (l.foldl finalizeRecord st) row.id = none := by
  induction l with
  | nil => intro st r row h; cases h
  | cons a tl ih =>
    intro st r row hr hrow
    by_cases hra : r = a
    · subst hra
      rw [List.foldl_cons]
      refine getStep_finalize_foldl_of_none tl (finalizeRecord st r) row.id ?_
      show alookup (finalizeRecord st r).stepsResultsDB row.id = none
      rw [finalizeRecord_steps_of_some st r row hrow]
      exact alookup_aerase_self _ _
    · rcases List.mem_cons.mp hr with h | h
      · exact absurd h hra
      · apply ih (finalizeRecord st a) r row h
        show alookup (finalizeRecord st a).recordsDBCache r = some row
        rw [finalizeRecord_cache]
        rw [alookup_aerase_ne _ _ _ hra]
        exact hrow

theorem getStep_finalize_foldl_fresh (l : List String) :
    ∀ (st : PersistanceState) (i : Nat) (v : StepExecutionResult),
      (∀ r ∈ l, ∀ row : RecordRow, getRecordStatus st r = some row → row.id ≠ i) →
      getStepResultKey st i = some v →
      getStepResultKey (l.foldl finalizeRecord st) i = some v := by
  induction l with
  | nil => intro st i v _ h; exact h
  | cons a tl ih =>
    intro st i v hfresh h
    apply ih (finalizeRecord st a) i v
    · intro r hr row hrow
      apply hfresh r (List.mem_cons_of_mem a hr) row
      by_cases hra : r = a
      · subst hra
        exfalso
        have : alookup (finalizeRecord st r).recordsDBCache r = none := by
          rw [finalizeRecord_cache]; exact alookup_aerase_self _ _
        rw [show getRecordStatus (finalizeRecord st r) r
            = alookup (finalizeRecord st r).recordsDBCache r from rfl, this] at hrow
        cases hrow
      · rw [show getRecordStatus (finalizeRecord st a) r
            = alookup (finalizeRecord st a).recordsDBCache r from rfl,
          finalizeRecord_cache, alookup_aerase_ne _ _ _ hra] at hrow
        exact hrow
    · show alookup (finalizeRecord st a).stepsResultsDB i = some v
      cases hrow : getRecordStatus st a with
      | some row =>
        rw [finalizeRecord_steps_of_some st a row hrow]
        have hne : row.id ≠ i := hfresh a (List.mem_cons_self a tl) row hrow
        rw [alookup_aerase_ne _ _ _ (fun hc => hne hc.symm)]
        exact h
      | none =>
        rw [finalizeRecord_steps_of_none st a hrow]
        exact h

theorem getRecord_checkpoint_foldl_of_target (k i : Nat) (s : Option STEP_RESULT_STATUS)
    (l : List String) :
    ∀ (st : PersistanceState) (r : String),
      getRecordStatus st r = some { step := k, id := i, status := s } →
      getRecordStatus (l.foldl (checkpointRecord k i s) st) r
        = some { step := k, id := i, status := s } := by
  induction l with
  | nil => intro st r h; exact h
  | cons a tl ih =>
    intro st r h
    apply ih
    show alookup (checkpointRecord k i s st a).recordsDBCache r = _
    rw [checkpointRecord_cache]
    by_cases hra : r = a
    · subst hra
      exact alookup_aset_self _ _ _
    · rw [alookup_aset_ne _ _ _ _ hra]
      exact h

theorem getRecord_checkpoint_foldl_mem (k i : Nat) (s : Option STEP_RESULT_STATUS)
    (l : List String) :
    ∀ (st : PersistanceState) (r : String), r ∈ l →
      getRecordStatus (l.foldl (checkpointRecord k i s) st) r
        = some { step := k, id := i, status := s } := by
  induction l with
  | nil => intro st r h; cases h
  | cons a tl ih =>
    intro st r hr
    by_cases hra : r = a
    · subst hra
      rw [List.foldl_cons]
      refine getRecord_checkpoint_foldl_of_target k i s tl (checkpointRecord k i s st r) r ?_
      show alookup (checkpointRecord k i s st r).recordsDBCache r = _
      rw [checkpointRecord_cache]
      exact alookup_aset_self _ _ _
    · rcases List.mem_cons.mp hr with h | h
      · exact absurd h hra
      · exact ih (checkpointRecord k i s st a) r h

theorem getStep_checkpoint_foldl_fresh (k : Nat) (s : Option STEP_RESULT_STATUS)
    (l : List String) :
    ∀ (st : PersistanceState) (i : Nat) (v : StepExecutionResult),
      l.Nodup →
      (∀ r ∈ l, ∀ row : RecordRow, getRecordStatus st r = some row → row.id ≠ i) →
      getStepResultKey st i = some v →
      getStepResultKey (l.foldl (checkpointRecord k i s) st) i = some v := by
  induction l with
  | nil => intro st i v _ _ h; exact h
  | cons a tl ih =>
    intro st i v hnd hfresh h
    have hnotmem : a ∉ tl := (List.nodup_cons.mp hnd).1
    apply ih (checkpointRecord k i s st a) i v (List.nodup_cons.mp hnd).2
    · intro r hr row hrow
      have hra : r ≠ a := fun hc => hnotmem (hc ▸ hr)
      apply hfresh r (List.mem_cons_of_mem a hr) row
      rw [show getRecordStatus (checkpointRecord k i s st a) r
          = alookup (checkpointRecord k i s st a).recordsDBCache r from rfl,
        checkpointRecord_cache, alookup_aset_ne _ _ _ _ hra] at hrow
      exact hrow
    · show alookup (checkpointRecord k i s st a).stepsResultsDB i = some v
      cases hrow : getRecordStatus st a with
      | some row =>
        rw [checkpointRecord_steps_of_some k i s st a row hrow]
        have hne : row.id ≠ i := hfresh a (List.mem_cons_self a tl) row hrow
        rw [alookup_aerase_ne _ _ _ (fun hc => hne hc.symm)]
        exact h
      | none =>
        rw [checkpointRecord_steps_of_none k i s st a hrow]
        exact h

theorem updateAddingStepExecResult_terminal (ser : StepExecutionResult) (freshId : Nat)
    (st : PersistanceState)
    (hs : ser.stepResultStatus = some STEP_RESULT_STATUS.SUCCESSFUL)
    (hl : ser.isLastOne = true) :
    updateAddingStepExecResult ser freshId st
      = ser.dependentRecords.foldl finalizeRecord
          (putStepResult st freshId { ser with id := some freshId }) := by
  simp only [updateAddingStepExecResult]
  rw [if_pos]
  exact ⟨by simpa using hs, by simpa using hl⟩

theorem updateAddingStepExecResult_nonterminal (ser : StepExecutionResult) (freshId : Nat)
    (st : PersistanceState)
    (h : ¬ (ser.stepResultStatus = some STEP_RESULT_STATUS.SUCCESSFUL ∧ ser.isLastOne = true)) :
    updateAddingStepExecResult ser freshId st
      = ser.dependentRecords.foldl
          (checkpointRecord ser.stepNumber freshId ser.stepResultStatus)
          (putStepResult st freshId { ser with id := some freshId }) := by
  simp only [updateAddingStepExecResult]
  rw [if_neg]
  intro hc
  exact h ⟨by simpa using hc.1, by simpa using hc.2⟩

@[simp]
theorem getCurrentStepStatus_accPayload (s : BatchStep) (b : Bool) (o : Option String)
    (t : Option STEP_RESULT_STATUS) :
    (getCurrentStepStatus s b o t).accPayload = s.previousStepPayloadAcc := rfl

@[simp]
theorem getCurrentStepStatus_dependentRecords (s : BatchStep) (b : Bool) (o : Option String)
    (t : Option STEP_RESULT_STATUS) :
    (getCurrentStepStatus s b o t).dependentRecords = s.dependentRecordsAcc := rfl

@[simp]
theorem getCurrentStepStatus_stepNumber (s : BatchStep) (b : Bool) (o : Option String)
    (t : Option STEP_RESULT_STATUS) :
    (getCurrentStepStatus s b o t).stepNumber = s.stepNumber := rfl

@[simp]
theorem getCurrentStepStatus_stepResultStatus (s : BatchStep) (b : Bool) (o : Option String)
    (t : Option STEP_RESULT_STATUS) :
    (getCurrentStepStatus s b o t).stepResultStatus = t := rfl

@[simp]
theorem getCurrentStepStatus_isLastOne (s : BatchStep) (b : Bool) (o : Option String)
    (t : Option STEP_RESULT_STATUS) :
    (getCurrentStepStatus s b o t).isLastOne = b := rfl

@[simp]
theorem resetAggregator_previousStepPayloadAcc (s : BatchStep) :
    (resetAggregator s).previousStepPayloadAcc = [] := rfl

@[simp]
theorem resetAggregator_dependentRecordsAcc (s : BatchStep) :
    (resetAggregator s).dependentRecordsAcc = [] := rfl

@[simp]
theorem publish_fst (ser : StepExecutionResult) (st : EngineSt) :
    (publish ser st).1 = { ser with id := some st.nextId } := rfl

/-- The invocation record pushed for a dispatched batch always carries the
nonempty snapshot of the pending payload buffer: the dispatch guard requires
`0 < |acc_payload|`.  Stated for `clientStepDispatch` with hypotheses on the
successor continuations. -/
theorem clientStepDispatch_calls_payload_nonempty (s : BatchStep) (rest : List BatchStep)
    (rfc : Int) (st : EngineSt)
    (recurExec : StepExecutionResult → Int → EngineSt → ExecOut)
    (recurClient : Int → EngineSt → ExecOut)
    (hE : ∀ ser rfp stp, ∀ c ∈ (recurExec ser rfp stp).calls, c.2 ≠ [])
    (hC : ∀ rfp stp, ∀ c ∈ (recurClient rfp stp).calls, c.2 ≠ []) :
    ∀ c ∈ (clientStepDispatch s rest rfc st recurExec recurClient).calls, c.2 ≠ [] := by
  intro c hc
  simp only [clientStepDispatch] at hc
  by_cases hg : 0 < (getCurrentStepStatus s rest.isEmpty).accPayload.length ∧
      0 < (getCurrentStepStatus s rest.isEmpty).dependentRecords.length
  · rw [if_pos hg] at hc
    have hne : s.previousStepPayloadAcc ≠ [] := by
      have := hg.1
      simp only [getCurrentStepStatus_accPayload] at this
      exact List.ne_nil_of_length_pos this
    cases hu : s.userStep (getCurrentStepStatus s rest.isEmpty).accPayload with
    | ok payload =>
      rw [hu] at hc
      dsimp only at hc
      by_cases hre : rest.isEmpty
      · rw [if_pos hre] at hc
        simp only [List.mem_singleton] at hc
        subst hc
        simpa using hne
      · rw [if_neg hre] at hc
        simp only [List.mem_cons] at hc
        rcases hc with hc | hc
        · subst hc
          simpa using hne
        · exact hE _ _ _ c hc
    | error e =>
      rw [hu] at hc
      dsimp only at hc
      simp only [List.mem_singleton] at hc
      subst hc
      simpa using hne
  · rw [if_neg hg] at hc
    by_cases hre : rest.isEmpty
    · rw [if_pos hre] at hc
      cases hc
    · rw [if_neg hre] at hc
      exact hC _ _ c hc

/-- Every user-step invocation recorded during any chain execution receives
a nonempty payload list. -/
theorem run1_calls_payload_nonempty :
    ∀ (chain : List BatchStep) (mode : ExecMode) (rf : Int) (st : EngineSt),
      ∀ c ∈ (run1 chain mode rf st).calls, c.2 ≠ [] := by
  intro chain
  induction chain with
  | nil =>
    intro mode rf st c hc
    cases mode <;> simp [run1] at hc
  | cons s rest ih =>
    intro mode rf st c hc
    cases mode with
    | client =>
      rw [run1_client_cons] at hc
      exact clientStepDispatch_calls_payload_nonempty s rest rf st _ _
        (fun ser rfp stp => ih (ExecMode.exec ser) rfp stp)
        (fun rfp stp => ih ExecMode.client rfp stp) c hc
    | exec prev =>
      rw [run1_exec_cons] at hc
      by_cases hdisp : (addPreviousStepPayloadAcc
          (addPreviousDependentRecordsToAcc s prev.dependentRecords)
          prev.outputPayload).aggregationQuantity ≤
          (addPreviousStepPayloadAcc
            (addPreviousDependentRecordsToAcc s prev.dependentRecords)
            prev.outputPayload).previousStepPayloadAcc.length ∨ 0 < rf
      · rw [if_pos hdisp] at hc
        exact clientStepDispatch_calls_payload_nonempty _ rest (rf - 1) st _ _
          (fun ser rfp stp => ih (ExecMode.exec ser) rfp stp)
          (fun rfp stp => ih ExecMode.client rfp stp) c hc
      · rw [if_neg hdisp] at hc
        cases hc

/-! ### Claim theorems -/

/-- Claim C9: `get_record` is served from the in-memory write-through cache;
`del_record` removes the cache entry before the disk delete is scheduled
(the disk map is untouched, the delete is only queued); a `get_record(id)`
after `del_record(id)` starts returns absent and a `get_record(id)` after
`put_record(id, v)` returns `v`, regardless of whether the scheduled disk
operations have completed (`flushRecordsDisk` does not change any read). -/
theorem recordCacheIsAuthoritative (st : PersistanceState) (k : String) (row : RecordRow) :
    getRecordStatus (putRecordStatus st k row) k = some row ∧
    getRecordStatus (delRecordStatus st k) k = none ∧
    (delRecordStatus st k).recordsDisk = st.recordsDisk ∧
    (delRecordStatus st k).recordsDiskQueue = st.recordsDiskQueue ++ [RecordsDiskOp.del k] ∧
    (∀ k' : String, getRecordStatus (flushRecordsDisk st) k' = getRecordStatus st k') := by
  refine ⟨?_, ?_, rfl, rfl, fun k' => rfl⟩
  · exact alookup_aset_self _ _ _
  · exact alookup_aerase_self _ _

/-- Claim C2: a publication with status `SUCCESSFUL` on the last step of the
chain finalizes every dependent record: the record's entry disappears from
the `records` namespace, and if the record had a prior entry its prior step
snapshot is deleted from the steps namespace. -/
theorem terminalSuccessPublicationFinalizes (ser : StepExecutionResult) (freshId : Nat)
    (st : PersistanceState)
    (hs : ser.stepResultStatus = some STEP_RESULT_STATUS.SUCCESSFUL)
    (hl : ser.isLastOne = true) (r : String) (hr : r ∈ ser.dependentRecords) :
    getRecordStatus (updateAddingStepExecResult ser freshId st) r = none ∧
    ∀ row : RecordRow, getRecordStatus st r = some row →
      getStepResultKey (updateAddingStepExecResult ser freshId st) row.id = none := by
  rw [updateAddingStepExecResult_terminal ser freshId st hs hl]
  constructor
  · exact getRecord_finalize_foldl_mem _ _ _ hr
  · intro row hrow
    exact getStep_finalize_foldl_prior _ _ r row hr hrow

def serWitnessC2 : StepExecutionResult :=
  { id := none, stepName := "last", stepNumber := 2,
    stepResultStatus := some STEP_RESULT_STATUS.SUCCESSFUL,
    dependentRecords := ["a"], accPayload := ["p"], outputPayload := some "o",
    error := none, isLastOne := true }

def snapWitnessC2 : StepExecutionResult :=
  { id := some 5, stepName := "last", stepNumber := 2,
    stepResultStatus := some STEP_RESULT_STATUS.PROCESSING,
    dependentRecords := ["a"], accPayload := ["p"], outputPayload := none,
    error := none, isLastOne := true }

def stWitnessC2 : PersistanceState :=
  { recordsDBCache := [("a", { step := 2, id := 5, status := some STEP_RESULT_STATUS.PROCESSING })]
    recordsDiskQueue := []
    recordsDisk := [("a", { step := 2, id := 5, status := some STEP_RESULT_STATUS.PROCESSING })]
    stepsResultsDB := [(5, snapWitnessC2)] }

theorem terminalSuccessPublicationFinalizes_witness :
    getRecordStatus (updateAddingStepExecResult serWitnessC2 9 stWitnessC2) "a" = none ∧
    getStepResultKey (updateAddingStepExecResult serWitnessC2 9 stWitnessC2) 5 = none :=
  ⟨(terminalSuccessPublicationFinalizes serWitnessC2 9 stWitnessC2 rfl rfl "a"
      (by decide)).1,
   (terminalSuccessPublicationFinalizes serWitnessC2 9 stWitnessC2 rfl rfl "a"
      (by decide)).2
     { step := 2, id := 5, status := some STEP_RESULT_STATUS.PROCESSING } rfl⟩

/-- Claim C6 (counterexample): the claim says a terminal-success publication
adds no new entry to the steps namespace; but `updateAddingStepExecResult`
performs `putStepResult` unconditionally, so after a terminal-success
publication the fresh-id steps entry is present. -/
theorem terminalSuccessPublicationPutsStep_counterexample :
    ¬ getStepResultKey (updateAddingStepExecResult serWitnessC2 9 stWitnessC2) 9 = none := by
  decide

/-- Claim C6 (amended): a durable publication writes the snapshot into the
steps namespace under the fresh id for every status — including terminal
success — provided the fresh id is indeed fresh (no prior record row points
at it) and the dependent records are pairwise distinct. -/
theorem publicationAlwaysPutsStepSnapshot (ser : StepExecutionResult) (freshId : Nat)
    (st : PersistanceState)
    (hnd : ser.dependentRecords.Nodup)
    (hfresh : ∀ r ∈ ser.dependentRecords, ∀ row : RecordRow,
      getRecordStatus st r = some row → row.id ≠ freshId) :
    getStepResultKey (updateAddingStepExecResult ser freshId st) freshId
      = some { ser with id := some freshId } := by
  have hbase : getStepResultKey (putStepResult st freshId { ser with id := some freshId })
      freshId = some { ser with id := some freshId } := alookup_aset_self _ _ _
  by_cases hterm : ser.stepResultStatus = some STEP_RESULT_STATUS.SUCCESSFUL ∧
      ser.isLastOne = true
  · rw [updateAddingStepExecResult_terminal ser freshId st hterm.1 hterm.2]
    exact getStep_finalize_foldl_fresh _ _ _ _ hfresh hbase
  · rw [updateAddingStepExecResult_nonterminal ser freshId st hterm]
    exact getStep_checkpoint_foldl_fresh _ _ _ _ _ _ hnd hfresh hbase

theorem publicationAlwaysPutsStepSnapshot_witness :
    getStepResultKey (updateAddingStepExecResult serWitnessC2 9 stWitnessC2) 9
      = some { serWitnessC2 with id := some 9 } :=
  publicationAlwaysPutsStepSnapshot serWitnessC2 9 stWitnessC2 (by decide) (by decide)

/-- Claim C1 (amended): when the chain returns a `FAILED` SER, the
controller counts `|dependent_records|` as failed and — contrary to the
claim — *does* replenish the concurrency during injection: it decrements
the concurrency by `|dependent_records|` and schedules exactly
`|dependent_records|` fresh pump iterations, the same as for a
terminal-step `SUCCESSFUL` result. -/
theorem failedResultIsCountedAndRefilled (stepsCount : Nat) (conc : Int)
    (returned : StepExecutionResult)
    (hf : returned.stepResultStatus = some STEP_RESULT_STATUS.FAILED) :
    failedRecordsDelta returned = returned.dependentRecords.length ∧
    successfulDependentRecords stepsCount returned = returned.dependentRecords.length ∧
    doPostCommonRecordTasks conc BATCH_STATUS.PROCESSING_INJECTING
        (successfulDependentRecords stepsCount returned)
      = (conc - returned.dependentRecords.length, returned.dependentRecords.length) := by
  unfold failedRecordsDelta successfulDependentRecords doPostCommonRecordTasks
  rw [if_pos hf, if_pos hf]
  exact ⟨rfl, rfl, rfl⟩

def failingStep : BatchStep :=
  { stepName := "boom", stepNumber := 1, aggregationQuantity := 2,
    dependentRecordsAcc := [], previousStepPayloadAcc := [],
    userStep := fun _ => Except.error "boom" }

def failingRunOut1 : ExecOut :=
  execute [failingStep] (bootstrapStepResult { id := "a", payload := "pa" }) 0
    { pers := emptyPersistanceState, nextId := 0 }

def failingRunOut2 : ExecOut :=
  execute failingRunOut1.chain (bootstrapStepResult { id := "b", payload := "pb" }) 0
    failingRunOut1.engine

theorem failedResultIsCountedAndRefilled_witness :
    failedRecordsDelta failingRunOut2.ser = failingRunOut2.ser.dependentRecords.length ∧
    successfulDependentRecords 1 failingRunOut2.ser
      = failingRunOut2.ser.dependentRecords.length ∧
    doPostCommonRecordTasks 2 BATCH_STATUS.PROCESSING_INJECTING
        (successfulDependentRecords 1 failingRunOut2.ser)
      = ((2 : Int) - (failingRunOut2.ser.dependentRecords.length : Int),
         failingRunOut2.ser.dependentRecords.length) :=
  failedResultIsCountedAndRefilled 1 2 failingRunOut2.ser (by decide)

/-- Claim C1 (counterexample): on a concrete chain of one step with
aggregation quantity 2 whose user function rejects, the second pumped
record produces a `FAILED` SER with two dependent records, and during
injection the controller schedules 2 replacement pump iterations — not the
0 the claim asserts. -/
theorem failedResultIsCountedAndRefilled_counterexample :
    failingRunOut2.ser.stepResultStatus = some STEP_RESULT_STATUS.FAILED ∧
    ¬ (doPostCommonRecordTasks 2 BATCH_STATUS.PROCESSING_INJECTING
        (successfulDependentRecords 1 failingRunOut2.ser)).2 = 0 := by
  decide

def stepC3 : BatchStep :=
  { stepName := "agg2", stepNumber := 1, aggregationQuantity := 2,
    dependentRecordsAcc := [], previousStepPayloadAcc := [],
    userStep := fun _ => Except.ok "x" }

def invalidIncomingC3 : StepExecutionResult :=
  { id := none, stepName := "prev", stepNumber := 0,
    stepResultStatus := some STEP_RESULT_STATUS.FAILED,
    dependentRecords := ["r1"], accPayload := [], outputPayload := some "p",
    error := none, isLastOne := false }

def outC3 : ExecOut :=
  execute [stepC3] invalidIncomingC3 0 { pers := emptyPersistanceState, nextId := 0 }

/-- Claim C3 (counterexample): an incoming SER with status `FAILED` is *not*
rejected by `execute`: its dependent records and payload are appended to
the step's pending buffers and the step answers `ACCUMULATING`, not a
synthesized bad-input `FAILED` SER. -/
theorem invalidInputIsNotRejected_counterexample :
    outC3.ser.stepResultStatus = some STEP_RESULT_STATUS.ACCUMULATING ∧
    ¬ outC3.ser.stepResultStatus = some STEP_RESULT_STATUS.FAILED ∧
    outC3.chain.map (fun t => (t.dependentRecordsAcc, t.previousStepPayloadAcc))
      = [(["r1"], ["p"])] := by
  decide

/-- Claim C3 (amended): `execute` performs no validation of the incoming
SER at all — its behaviour is independent of the incoming status, so an
invalid-status SER is accumulated exactly like a `SUCCESSFUL` one and no
bad-input `FAILED` SER is ever synthesized. -/
theorem executeIgnoresIncomingStatus (s : BatchStep) (rest : List BatchStep)
    (prev : StepExecutionResult) (newStatus : Option STEP_RESULT_STATUS)
    (rf : Int) (st : EngineSt) :
    execute (s :: rest) { prev with stepResultStatus := newStatus } rf st
      = execute (s :: rest) prev rf st := by
  show run1 (s :: rest) (ExecMode.exec { prev with stepResultStatus := newStatus }) rf st
      = run1 (s :: rest) (ExecMode.exec prev) rf st
  rw [run1, run1]

/-- Claim C8: running `retry` over a prior run whose `records` namespace has
no residual rows is a no-op: no user step function is invoked and the retry
ends in `FINISHED_SUCCESSFULLY` with nothing loaded. -/
theorem retryOnCleanRunIsNoop (chain : List BatchStep)
    (recoveredSteps : List (Nat × StepExecutionResult)) (st : EngineSt) :
    (retry chain [] recoveredSteps st).1.calls = [] ∧
    (retry chain [] recoveredSteps st).1.loadedRecords = 0 ∧
    (retry chain [] recoveredSteps st).2 = BATCH_STATUS.FINISHED_SUCCESSFULLY := by
  have hfold : ∀ (l : List Nat) (o : RetrySt),
      l.foldl (fun o _ => o) o = o := by
    intro l
    induction l with
    | nil => intro o; rfl
    | cons a tl ih => intro o; exact ih o
  unfold retry
  simp only [List.foldl_nil]
  simp only [hfold]
  refine ⟨trivial, trivial, rfl⟩

/-- Claim C4: when a step dispatches a batch, the outgoing SER snapshots the
pending buffers and both buffers are cleared before the user function's
result is examined: the recorded user invocation receives exactly the
snapshot of `pending_payloads`, and the step that remains in the chain for
any later arrival is `resetAggregator s`, whose buffers are empty — so a
payload arriving during the (suspended) user call accumulates into a fresh
batch and never joins the in-flight snapshot. -/
theorem dispatchSnapshotsThenClearsBuffers (s : BatchStep) (rest : List BatchStep)
    (rf : Int) (st : EngineSt)
    (hp : s.previousStepPayloadAcc ≠ []) (hd : s.dependentRecordsAcc ≠ []) :
    (executeClientStep (s :: rest) rf st).calls.head?
        = some (s.stepNumber, s.previousStepPayloadAcc) ∧
    (executeClientStep (s :: rest) rf st).chain.head? = some (resetAggregator s) ∧
    (resetAggregator s).previousStepPayloadAcc = [] ∧
    (resetAggregator s).dependentRecordsAcc = [] := by
  have hg : 0 < (getCurrentStepStatus s rest.isEmpty).accPayload.length ∧
      0 < (getCurrentStepStatus s rest.isEmpty).dependentRecords.length := by
    constructor
    · simpa using List.length_pos.mpr hp
    · simpa using List.length_pos.mpr hd
  show ((run1 (s :: rest) ExecMode.client rf st).calls.head? = _) ∧
    ((run1 (s :: rest) ExecMode.client rf st).chain.head? = _) ∧ _ ∧ _
  rw [run1_client_cons]
  simp only [clientStepDispatch]
  rw [if_pos hg]
  cases hu : s.userStep (getCurrentStepStatus s rest.isEmpty).accPayload with
  | ok payload =>
    dsimp only
    by_cases hre : rest.isEmpty
    · rw [if_pos hre]
      exact ⟨rfl, rfl, rfl, rfl⟩
    · rw [if_neg hre]
      exact ⟨rfl, rfl, rfl, rfl⟩
  | error e =>
    dsimp only
    exact ⟨rfl, rfl, rfl, rfl⟩

def stepWitnessC4 : BatchStep :=
  { stepName := "w4", stepNumber := 1, aggregationQuantity := 2,
    dependentRecordsAcc := ["d"], previousStepPayloadAcc := ["p"],
    userStep := fun _ => Except.ok "out" }

theorem dispatchSnapshotsThenClearsBuffers_witness :
    (executeClientStep [stepWitnessC4] 0
        { pers := emptyPersistanceState, nextId := 0 }).calls.head?
      = some (stepWitnessC4.stepNumber, stepWitnessC4.previousStepPayloadAcc) ∧
    (executeClientStep [stepWitnessC4] 0
        { pers := emptyPersistanceState, nextId := 0 }).chain.head?
      = some (resetAggregator stepWitnessC4) ∧
    (resetAggregator stepWitnessC4).previousStepPayloadAcc = [] ∧
    (resetAggregator stepWitnessC4).dependentRecordsAcc = [] :=
  dispatchSnapshotsThenClearsBuffers stepWitnessC4 [] 0
    { pers := emptyPersistanceState, nextId := 0 } (by decide) (by decide)

/-- Claim C10: a forced drain (`executeClientStep`) on a step whose pending
buffers are empty never invokes that step's user function: with a successor
the drain is delegated to the successor (the step merely re-inserts its
reset self into the chain), and at the terminal step it returns a
`SUCCESSFUL` SER with empty `dependent_records` and `acc_payload` without
any user invocation; moreover no recorded user invocation anywhere in a
drain carries an empty payload list. -/
theorem emptyBuffersNeverInvokeUserStep (s : BatchStep) (rest : List BatchStep)
    (rf : Int) (st : EngineSt)
    (hp : s.previousStepPayloadAcc = []) (hd : s.dependentRecordsAcc = []) :
    (rest = [] →
      (executeClientStep (s :: rest) rf st).ser.stepResultStatus
          = some STEP_RESULT_STATUS.SUCCESSFUL ∧
      (executeClientStep (s :: rest) rf st).ser.dependentRecords = [] ∧
      (executeClientStep (s :: rest) rf st).ser.accPayload = [] ∧
      (executeClientStep (s :: rest) rf st).calls = []) ∧
    (rest ≠ [] →
      executeClientStep (s :: rest) rf st
        = ⟨(executeClientStep rest (rf - 1) st).ser,
           resetAggregator s :: (executeClientStep rest (rf - 1) st).chain,
           (executeClientStep rest (rf - 1) st).engine,
           (executeClientStep rest (rf - 1) st).calls⟩) ∧
    (∀ c ∈ (executeClientStep (s :: rest) rf st).calls, c.2 ≠ []) := by
  have hg : ¬ (0 < (getCurrentStepStatus s rest.isEmpty).accPayload.length ∧
      0 < (getCurrentStepStatus s rest.isEmpty).dependentRecords.length) := by
    intro hcon
    have := hcon.1
    rw [getCurrentStepStatus_accPayload, hp] at this
    exact absurd this (by simp)
  refine ⟨?_, ?_, ?_⟩
  · intro hre
    subst hre
    show _ ∧ _ ∧ _ ∧ _
    rw [show executeClientStep [s] rf st = run1 [s] ExecMode.client rf st from rfl,
      run1_client_cons]
    simp only [clientStepDispatch]
    rw [if_neg hg]
    rw [if_pos (show ([] : List BatchStep).isEmpty = true from rfl)]
    exact ⟨rfl, hd, hp, rfl⟩
  · intro hre
    cases rest with
    | nil => exact absurd rfl hre
    | cons r1 rs =>
      show run1 ((s :: r1 :: rs) : List BatchStep) ExecMode.client rf st = _
      rw [run1_client_cons]
      simp only [clientStepDispatch]
      rw [if_neg hg]
      rfl
  · exact run1_calls_payload_nonempty (s :: rest) ExecMode.client rf st

def stepWitnessC10 : BatchStep :=
  { stepName := "w10", stepNumber := 1, aggregationQuantity := 2,
    dependentRecordsAcc := [], previousStepPayloadAcc := [],
    userStep := fun _ => Except.ok "out" }

def stepWitnessC10b : BatchStep :=
  { stepName := "w10b", stepNumber := 2, aggregationQuantity := 1,
    dependentRecordsAcc := [], previousStepPayloadAcc := [],
    userStep := fun _ => Except.ok "out" }

theorem emptyBuffersNeverInvokeUserStep_witness :
    executeClientStep [stepWitnessC10, stepWitnessC10b] 1
        { pers := emptyPersistanceState, nextId := 0 }
      = ⟨(executeClientStep [stepWitnessC10b] 0
            { pers := emptyPersistanceState, nextId := 0 }).ser,
         resetAggregator stepWitnessC10
           :: (executeClientStep [stepWitnessC10b] 0
                { pers := emptyPersistanceState, nextId := 0 }).chain,
         (executeClientStep [stepWitnessC10b] 0
            { pers := emptyPersistanceState, nextId := 0 }).engine,
         (executeClientStep [stepWitnessC10b] 0
            { pers := emptyPersistanceState, nextId := 0 }).calls⟩ :=
  (emptyBuffersNeverInvokeUserStep stepWitnessC10 [stepWitnessC10b] 1
    { pers := emptyPersistanceState, nextId := 0 } rfl rfl).2.1 (List.cons_ne_nil _ _)

/-- Claim C5: for a valid incoming SER, when after appending its dependent
records and output payload the pending payload count is still strictly
below the aggregation quantity and no drain flag is set, `execute` returns
an `ACCUMULATING` SER snapshotting the appended buffers, checkpoints it
durably (steps entry under the fresh id, record rows re-pointed at it), and
leaves the step's buffers populated in the returned chain; no user function
runs.  Freshness of the publication id and distinctness of the dependent
records are the id-uniqueness assumptions of the UUID generator. -/
theorem accumulatingReturnKeepsBuffers (s : BatchStep) (rest : List BatchStep)
    (incoming : StepExecutionResult) (p : String) (rf : Int) (st : EngineSt)
    (hvStatus : incoming.stepResultStatus = some STEP_RESULT_STATUS.SUCCESSFUL)
    (hvPayload : incoming.outputPayload = some p)
    (hvDeps : incoming.dependentRecords ≠ [])
    (hq : s.previousStepPayloadAcc.length + 1 < s.aggregationQuantity)
    (hrf : rf ≤ 0)
    (hnd : (s.dependentRecordsAcc ++ incoming.dependentRecords).Nodup)
    (hfresh : ∀ r ∈ s.dependentRecordsAcc ++ incoming.dependentRecords,
      ∀ row : RecordRow, getRecordStatus st.pers r = some row → row.id ≠ st.nextId) :
    (execute (s :: rest) incoming rf st).ser.stepResultStatus
        = some STEP_RESULT_STATUS.ACCUMULATING ∧
    (execute (s :: rest) incoming rf st).ser.dependentRecords
        = s.dependentRecordsAcc ++ incoming.dependentRecords ∧
    (execute (s :: rest) incoming rf st).ser.accPayload
        = s.previousStepPayloadAcc ++ [p] ∧
    (execute (s :: rest) incoming rf st).calls = [] ∧
    (execute (s :: rest) incoming rf st).chain
        = { s with
            dependentRecordsAcc := s.dependentRecordsAcc ++ incoming.dependentRecords
            previousStepPayloadAcc := s.previousStepPayloadAcc ++ [p] } :: rest ∧
    getStepResultKey (execute (s :: rest) incoming rf st).engine.pers st.nextId
        = some { getCurrentStepStatus
            { s with
              dependentRecordsAcc := s.dependentRecordsAcc ++ incoming.dependentRecords
              previousStepPayloadAcc := s.previousStepPayloadAcc ++ [p] }
            rest.isEmpty none (some STEP_RESULT_STATUS.ACCUMULATING)
            with id := some st.nextId } ∧
    ∀ r ∈ s.dependentRecordsAcc ++ incoming.dependentRecords,
      getRecordStatus (execute (s :: rest) incoming rf st).engine.pers r
        = some { step := s.stepNumber, id := st.nextId,
                 status := some STEP_RESULT_STATUS.ACCUMULATING } := by
  have hs1 : addPreviousStepPayloadAcc
      (addPreviousDependentRecordsToAcc s incoming.dependentRecords) incoming.outputPayload
      = { s with
          dependentRecordsAcc := s.dependentRecordsAcc ++ incoming.dependentRecords
          previousStepPayloadAcc := s.previousStepPayloadAcc ++ [p] } := by
    rw [hvPayload]
    rfl
  have hcond : ¬ (({ s with
        dependentRecordsAcc := s.dependentRecordsAcc ++ incoming.dependentRecords
        previousStepPayloadAcc := s.previousStepPayloadAcc ++ [p] } :
          BatchStep).aggregationQuantity
      ≤ ({ s with
        dependentRecordsAcc := s.dependentRecordsAcc ++ incoming.dependentRecords
        previousStepPayloadAcc := s.previousStepPayloadAcc ++ [p] } :
          BatchStep).previousStepPayloadAcc.length ∨ 0 < rf) := by
    intro h
    rcases h with h | h
    · simp only [List.length_append, List.length_singleton] at h
      omega
    · omega
  have hgoal : execute (s :: rest) incoming rf st
      = (let aSer := getCurrentStepStatus
          { s with
            dependentRecordsAcc := s.dependentRecordsAcc ++ incoming.dependentRecords
            previousStepPayloadAcc := s.previousStepPayloadAcc ++ [p] }
          rest.isEmpty none (some STEP_RESULT_STATUS.ACCUMULATING)
         let pub1 := publish aSer st
         (⟨pub1.1, { s with
            dependentRecordsAcc := s.dependentRecordsAcc ++ incoming.dependentRecords
            previousStepPayloadAcc := s.previousStepPayloadAcc ++ [p] } :: rest,
           pub1.2, []⟩ : ExecOut)) := by
    show run1 (s :: rest) (ExecMode.exec incoming) rf st = _
    rw [run1_exec_cons]
    dsimp only
    rw [hs1]
    rw [if_neg hcond]
  rw [hgoal]
  dsimp only
  have hnonterm : ¬ ((getCurrentStepStatus
      { s with
        dependentRecordsAcc := s.dependentRecordsAcc ++ incoming.dependentRecords
        previousStepPayloadAcc := s.previousStepPayloadAcc ++ [p] }
      rest.isEmpty none (some STEP_RESULT_STATUS.ACCUMULATING)).stepResultStatus
        = some STEP_RESULT_STATUS.SUCCESSFUL ∧
      (getCurrentStepStatus
      { s with
        dependentRecordsAcc := s.dependentRecordsAcc ++ incoming.dependentRecords
        previousStepPayloadAcc := s.previousStepPayloadAcc ++ [p] }
      rest.isEmpty none (some STEP_RESULT_STATUS.ACCUMULATING)).isLastOne = true) := by
    intro h
    have := h.1
    rw [getCurrentStepStatus_stepResultStatus] at this
    cases this
  refine ⟨rfl, rfl, rfl, rfl, rfl, ?_, ?_⟩
  · show getStepResultKey (updateAddingStepExecResult _ st.nextId st.pers) st.nextId = _
    rw [updateAddingStepExecResult_nonterminal _ _ _ hnonterm]
    refine getStep_checkpoint_foldl_fresh _ _ _ _ _ _ ?_ ?_ (alookup_aset_self _ _ _)
    · exact hnd
    · exact hfresh
  · intro r hr
    show getRecordStatus (updateAddingStepExecResult _ st.nextId st.pers) r = _
    rw [updateAddingStepExecResult_nonterminal _ _ _ hnonterm]
    exact getRecord_checkpoint_foldl_mem _ _ _ _ _ r hr

def stepWitnessC5 : BatchStep :=
  { stepName := "w5", stepNumber := 1, aggregationQuantity := 3,
    dependentRecordsAcc := ["x"], previousStepPayloadAcc := ["px"],
    userStep := fun _ => Except.ok "out" }

def incomingWitnessC5 : StepExecutionResult :=
  { id := none, stepName := "prev", stepNumber := 0,
    stepResultStatus := some STEP_RESULT_STATUS.SUCCESSFUL,
    dependentRecords := ["y"], accPayload := [], outputPayload := some "py",
    error := none, isLastOne := false }

def engineWitnessC5 : EngineSt := { pers := emptyPersistanceState, nextId := 0 }

theorem accumulatingReturnKeepsBuffers_witness :
    (execute [stepWitnessC5] incomingWitnessC5 0 engineWitnessC5).ser.stepResultStatus
        = some STEP_RESULT_STATUS.ACCUMULATING ∧
    (execute [stepWitnessC5] incomingWitnessC5 0 engineWitnessC5).ser.accPayload
        = stepWitnessC5.previousStepPayloadAcc ++ ["py"] ∧
    getRecordStatus
        (execute [stepWitnessC5] incomingWitnessC5 0 engineWitnessC5).engine.pers "y"
      = some { step := stepWitnessC5.stepNumber, id := engineWitnessC5.nextId,
               status := some STEP_RESULT_STATUS.ACCUMULATING } :=
  have T := accumulatingReturnKeepsBuffers stepWitnessC5 [] incomingWitnessC5 "py" 0
    engineWitnessC5 rfl rfl (by decide) (by decide) (by decide) (by decide)
    (fun r hr row hrow => Option.noConfusion hrow)
  ⟨T.1, T.2.2.1, T.2.2.2.2.2.2 "y" (by decide)⟩

/-- The aggregation scenario of the spec: chain of a single step with
aggregation quantity 3, a source of exactly 7 records, run under the
sequential cooperative schedule and drained at end of input. -/
def aggregationScenarioStep : BatchStep :=
  { stepName := "aggregate-three", stepNumber := 1, aggregationQuantity := 3,
    dependentRecordsAcc := [], previousStepPayloadAcc := [],
    userStep := fun l => Except.ok (String.intercalate "-" l) }

def aggregationScenarioRecords : List BatchRecord :=
  (List.range 7).map (fun i => { id := toString (i + 1), payload := toString (i + 1) })

def aggregationScenarioOutcome : RunOutcome :=
  runPumpThenDrain [aggregationScenarioStep] aggregationScenarioRecords
    { pers := emptyPersistanceState, nextId := 0 }

/-- Claim C7 (counterexample): over 7 records with aggregation quantity 3
the run does NOT perform two full-batch calls of 3 payloads followed by a
drain call of 2 payloads (7 = 2·3 + 1, so only 1 payload remains for the
drain). -/
theorem aggregationScenario_counterexample :
    ¬ (aggregationScenarioOutcome.calls.map (fun c => c.2.length) = [3, 3, 2] ∧
       aggregationScenarioOutcome.loadedRecords = 7) := by
  decide

/-- Claim C7 (amended): the run invokes the user step exactly three times —
two full-batch calls of 3 payloads (`1,2,3` then `4,5,6`) and a single
drain call with the remaining 1 payload (`7`) — with the loaded-records
counter equal to 7. -/
theorem aggregationScenario :
    aggregationScenarioOutcome.calls
      = [(1, ["1", "2", "3"]), (1, ["4", "5", "6"]), (1, ["7"])] ∧
    aggregationScenarioOutcome.loadedRecords = 7 ∧
    aggregationScenarioOutcome.failedRecords = 0 ∧
    aggregationScenarioOutcome.status = BATCH_STATUS.FINISHED_SUCCESSFULLY := by
  decide

end BatchEngine
